import Mathlib

/-
  Verification of the MusicAPI post-processing core (src/main.py).

  The development shallowly embeds the two algorithmic components of the
  repository: the chord-timeline-to-note-event synthesizer
  (`ChordRecognizer.chord_to_midi_notes` / `ChordRecognizer.generate_midi`)
  and the sample-domain effects chain
  (`AudioMastering.process_audio_with_pedalboard`, with its inner helpers
  `stereo_widen` and `reduce_piano_volume`).

  Modelling conventions:
  - Sample values and times are rationals (the Python code uses floats; all
    claims under scrutiny are exact-arithmetic statements, and the float
    rounding is irrelevant to them).
  - Audio buffers mirror the pedalboard layout: a list of channels, each a
    list of samples (`AudioFile.read` returns a channels-by-frames array,
    and `audio[0::2]` in the source slices every second channel).
  - External libraries invoked by the source are modelled from their
    documented behaviour where a claim depends on them
    (`librosa.note_to_midi` name grammar, `scipy.signal.butter` input
    validation) and are otherwise abstracted as function parameters
    (the pedalboard effects, the designed Butterworth filter itself).
  - Python exceptions are modelled with `Except String`.
-/

namespace MusicAPI

/-! ### Chord-to-pitch mapper (src/main.py lines 38-55) -/

/-- The literal `note_mapping` dictionary of `ChordRecognizer.chord_to_midi_notes`,
as an association list in source order. -/
def noteMapping : List (String × List String) :=
  [("C:maj", ["C4", "E4", "G4"]),
   ("C:min", ["C4", "E-4", "G4"]),
   ("D:maj", ["D4", "F#4", "A4"]),
   ("D:min", ["D4", "F4", "A4"]),
   ("E:maj", ["E4", "G#4", "B4"]),
   ("E:min", ["E4", "G4", "B4"]),
   ("F:maj", ["F4", "A4", "C5"]),
   ("F:min", ["F4", "A-4", "C5"]),
   ("G:maj", ["G4", "B4", "D5"]),
   ("G:min", ["G4", "B-4", "D5"]),
   ("A:maj", ["A4", "C#5", "E5"]),
   ("A:min", ["A4", "C5", "E5"]),
   ("B:maj", ["B4", "D#5", "F#5"]),
   ("B:min", ["B4", "D5", "F#5"])]

/-- `ChordRecognizer.chord_to_midi_notes`: `note_mapping.get(chord_name, [])`. -/
def chord_to_midi_notes (chord_name : String) : List String :=
  (noteMapping.lookup chord_name).getD []

/-! ### librosa.note_to_midi (external collaborator)

The source converts each pitch name with `librosa.note_to_midi`.  librosa
parses a note string against the grammar
`letter [A-Ga-g]` · `accidentals [#b!]*` · `optional signed octave [+-]?[0-9]+`
(plus unicode accidentals and a cents suffix, neither of which any string in
`note_mapping` uses), maps the letter through
C=0 D=2 E=4 F=5 G=7 A=9 B=11, each `#` to +1 and each `b`/`!` to -1, and
returns `12 * (octave + 1) + letter_value + accidental_offset` with octave
defaulting to 0; unparsable names raise.  Note that `-` is NOT a flat sign
in this grammar: it is the sign of the octave number. -/

/-- librosa pitch-class value of a note letter (case-insensitive). -/
def pitchClassValue : Char → Option Int
  | 'C' => some 0
  | 'D' => some 2
  | 'E' => some 4
  | 'F' => some 5
  | 'G' => some 7
  | 'A' => some 9
  | 'B' => some 11
  | 'c' => some 0
  | 'd' => some 2
  | 'e' => some 4
  | 'f' => some 5
  | 'g' => some 7
  | 'a' => some 9
  | 'b' => some 11
  | _ => none

/-- librosa accidental offsets (ASCII subset; the unicode accidentals are
not used by any string this program produces). -/
def accidentalValue : Char → Option Int
  | '#' => some 1
  | 'b' => some (-1)
  | '!' => some (-1)
  | _ => none

/-- Parse a non-empty all-digit string as a natural number. -/
def parseDigits (cs : List Char) : Option Nat :=
  if cs ≠ [] ∧ cs.all Char.isDigit then
    some (cs.foldl (fun n c => 10 * n + (c.toNat - 48)) 0)
  else none

/-- Parse librosa's octave field: absent means octave 0, otherwise an
optionally signed decimal number. -/
def parseOctave : List Char → Option Int
  | [] => some 0
  | '-' :: cs => (parseDigits cs).map (fun n => -(n : Int))
  | '+' :: cs => (parseDigits cs).map (fun n => (n : Int))
  | cs => (parseDigits cs).map (fun n => (n : Int))

/-- `librosa.note_to_midi` on the grammar subset relevant to this program
(`none` models the ParameterError librosa raises on unparsable names). -/
def note_to_midi (s : String) : Option Int :=
  match s.data with
  | [] => none
  | c :: rest =>
    match pitchClassValue c with
    | none => none
    | some p =>
      let accs := rest.takeWhile (fun ch => (accidentalValue ch).isSome)
      let post := rest.dropWhile (fun ch => (accidentalValue ch).isSome)
      let offset := accs.foldl (fun n ch => n + (accidentalValue ch).getD 0) 0
      match parseOctave post with
      | none => none
      | some octave => some (12 * (octave + 1) + p + offset)

/-! ### Note timeline synthesizer (src/main.py lines 57-72) -/

/-- A pretty_midi note as constructed by `generate_midi`: velocity, pitch,
start and end time.  The pitch is an integer with no range restriction,
exactly as `pretty_midi.Note` stores whatever `librosa.note_to_midi`
returned. -/
structure NoteEvent where
  velocity : Int
  pitch : Int
  start : ℚ
  stop : ℚ
deriving DecidableEq, Repr

/-- Pitch of a note name as the source uses it: `librosa.note_to_midi`
raises on unparsable names, and every name in `note_mapping` parses
(lemma `noteMapping_names_parse`), so the defaulted value is never taken. -/
def notePitch (note_name : String) : Int :=
  (note_to_midi note_name).getD 0

/-- `ChordRecognizer.generate_midi`, loop body: each timeline entry
`(start_time, end_time, chord_name)` contributes one note per mapped pitch
with velocity 100, unless the label is the no-chord sentinel `"N"`. -/
def generate_midi (chords : List (ℚ × ℚ × String)) : List NoteEvent :=
  chords.flatMap (fun chord =>
    let start_time := chord.1
    let end_time := chord.2.1
    let chord_name := chord.2.2
    if chord_name ≠ "N" then
      (chord_to_midi_notes chord_name).map (fun note_name =>
        { velocity := 100
          pitch := notePitch note_name
          start := start_time
          stop := end_time })
    else [])

/-- `generate_midi` as the state transformer it really is: the method
appends to the mutable `self.instrument_chords.notes` list (initially `[]`),
so a run maps the accumulated note list `notes` to `notes ++ fresh events`. -/
def generate_midi_state (notes : List NoteEvent) (chords : List (ℚ × ℚ × String)) :
    List NoteEvent :=
  notes ++ generate_midi chords

/-! ### Helper lemmas about association-list lookup -/

theorem lookup_eq_none_of_not_mem_keys {α β : Type} [BEq α] [LawfulBEq α]
    (l : List (α × β)) (a : α) (h : a ∉ l.map Prod.fst) : List.lookup a l = none := by
  induction l with
  | nil => rfl
  | cons p t ih =>
    obtain ⟨k, v⟩ := p
    simp only [List.map_cons, List.mem_cons] at h
    push_neg at h
    have hbk : (a == k) = false := by simp [h.1]
    simp only [List.lookup, hbk]
    exact ih h.2

theorem lookup_mem_values {α β : Type} [BEq α] [LawfulBEq α]
    (l : List (α × β)) (a : α) (b : β) (h : List.lookup a l = some b) :
    b ∈ l.map Prod.snd := by
  induction l with
  | nil => simp [List.lookup] at h
  | cons p t ih =>
    obtain ⟨k, v⟩ := p
    cases hbk : (a == k) with
    | true =>
      simp only [List.lookup, hbk, Option.some.injEq] at h
      simp [h]
    | false =>
      simp only [List.lookup, hbk] at h
      simp [ih h]

/-- Every pitch name in the table parses under librosa's grammar
(so `generate_midi` never hits librosa's ParameterError). -/
theorem noteMapping_names_parse :
    ∀ v ∈ noteMapping.map Prod.snd, ∀ nn ∈ v, (note_to_midi nn).isSome := by
  decide

/-- An interval whose label maps to a non-empty pitch list cannot carry the
no-chord sentinel, since `"N"` is not a key of `note_mapping`. -/
theorem ne_sentinel_of_mapped {l : String} (h : chord_to_midi_notes l ≠ []) : l ≠ "N" := by
  intro hl
  subst hl
  exact h (by decide)

/-- C1: on the timeline `[(0.0, 1.0, "C:maj"), (1.0, 2.0, "N")]` the
synthesizer emits exactly the three NoteEvents C4 (60), E4 (64), G4 (67),
each with start 0, end 1 and velocity 100, and nothing for the `"N"`
interval; and in general an interval whose label maps to a non-empty pitch
list contributes exactly one event per mapped pitch, sharing the interval's
start/end times and velocity 100. -/
theorem generate_midi_emits_per_pitch :
    generate_midi [(0, 1, "C:maj"), (1, 2, "N")] =
      [⟨100, 60, 0, 1⟩, ⟨100, 64, 0, 1⟩, ⟨100, 67, 0, 1⟩] ∧
    ∀ (s e : ℚ) (l : String), chord_to_midi_notes l ≠ [] →
      generate_midi [(s, e, l)] =
        (chord_to_midi_notes l).map (fun nn =>
          { velocity := 100, pitch := notePitch nn, start := s, stop := e }) := by
  constructor
  · decide
  · intro s e l h
    simp [generate_midi, ne_sentinel_of_mapped h]

/-- Witness for C1 at the interval `(2, 3, "G:min")`, whose label maps to a
non-empty pitch list. -/
theorem generate_midi_emits_per_pitch_witness :
    chord_to_midi_notes "G:min" ≠ [] ∧
    generate_midi [((2 : ℚ), (3 : ℚ), "G:min")] =
      (chord_to_midi_notes "G:min").map (fun nn =>
        { velocity := 100, pitch := notePitch nn, start := (2 : ℚ), stop := (3 : ℚ) }) :=
  ⟨by decide, generate_midi_emits_per_pitch.2 2 3 "G:min" (by decide)⟩

/-- C3: the chord-to-pitch mapper is a pure total lookup: `"C:maj"` maps to
exactly C4, E4, G4; the sentinel `"N"` and arbitrary unknown labels map to
the empty list (the function is total, so no error is possible). -/
theorem chord_to_midi_notes_total_lookup :
    chord_to_midi_notes "C:maj" = ["C4", "E4", "G4"] ∧
    chord_to_midi_notes "N" = [] ∧
    chord_to_midi_notes "unknown-label" = [] ∧
    ∀ l : String, l ∉ noteMapping.map Prod.fst → chord_to_midi_notes l = [] := by
  refine ⟨by decide, by decide, by decide, ?_⟩
  intro l h
  unfold chord_to_midi_notes
  rw [lookup_eq_none_of_not_mem_keys noteMapping l h]
  rfl

/-- Witness for C3 at the unknown label `"Q:dim"`. -/
theorem chord_to_midi_notes_total_lookup_witness :
    "Q:dim" ∉ noteMapping.map Prod.fst ∧ chord_to_midi_notes "Q:dim" = [] :=
  ⟨by decide, chord_to_midi_notes_total_lookup.2.2.2 "Q:dim" (by decide)⟩

/-- C9: synthesis is deterministic across runs.  A first run on a fresh
recognizer turns the empty note list into `generate_midi tl` (a pure
function of the timeline, hence identical on every run); a second run on
the same object appends the same events again, and under order-independent
set equality the resulting note set is unchanged. -/
theorem generate_midi_deterministic (tl : List (ℚ × ℚ × String)) :
    generate_midi_state [] tl = generate_midi tl ∧
    (generate_midi_state (generate_midi_state [] tl) tl).toFinset =
      (generate_midi tl).toFinset := by
  constructor
  · simp [generate_midi_state]
  · simp [generate_midi_state, List.toFinset_append]

/-- C10: every mapped chord is a triad (the mapper returns the empty list or
exactly three names), but the pitch-range half of the claim fails: librosa
parses the table entry `"E-4"` as the note E in octave -4, i.e. MIDI pitch
-32, which lies outside [0, 127], and the synthesizer emits that pitch for
`"C:min"` (the intended pitch was E-flat-4 = 63; librosa spells flats with
`b`, while `-` marks a negative octave). -/
theorem note_pitch_out_of_range :
    (∀ c : String, (chord_to_midi_notes c).length = 0 ∨ (chord_to_midi_notes c).length = 3) ∧
    note_to_midi "E-4" = some (-32) ∧
    generate_midi [(0, 1, "C:min")] =
      [⟨100, 60, 0, 1⟩, ⟨100, -32, 0, 1⟩, ⟨100, 67, 0, 1⟩] ∧
    ¬ (0 ≤ (-32 : Int) ∧ (-32 : Int) ≤ 127) := by
  refine ⟨?_, by decide, by decide, by decide⟩
  intro c
  unfold chord_to_midi_notes
  cases hl : List.lookup c noteMapping with
  | none => simp
  | some v =>
    right
    have hv := lookup_mem_values noteMapping c v hl
    have hlen : ∀ w ∈ noteMapping.map Prod.snd, w.length = 3 := by decide
    simpa using hlen v hv

/-! ### Stereo field stage (src/main.py lines 97-103)

`stereo_widen` slices the channels-by-frames array with `audio[0::2]` and
`audio[1::2]` (every second channel starting at 0 resp. 1), multiplies both
slices by `width`, and writes them back into the same slice positions of an
array of the same shape.  There is no channel-count check anywhere. -/

/-- An audio buffer in pedalboard layout: one sample list per channel. -/
def Buffer : Type := List (List ℚ)

/-- Python slice `[0::2]`: elements at even positions. -/
def slice02 {α : Type} : List α → List α
  | [] => []
  | [x] => [x]
  | x :: _ :: xs => x :: slice02 xs

/-- Python slice `[1::2]`: elements at odd positions. -/
def slice12 {α : Type} : List α → List α
  | [] => []
  | [_] => []
  | _ :: y :: xs => y :: slice12 xs

/-- Writing list `a` into slice `[0::2]` and list `b` into slice `[1::2]`
of a fresh list of the combined length: the alternating riffle. -/
def interleave2 {α : Type} : List α → List α → List α
  | [], ys => ys
  | x :: xs, ys => x :: interleave2 ys xs
termination_by a b => a.length + b.length
decreasing_by simp [List.length_cons]; omega

/-- The inner `stereo_widen` of `process_audio_with_pedalboard`:
`left = audio[0::2] * width`, `right = audio[1::2] * width`, then both are
written back into an `empty_like` array at the same slice positions. -/
def stereo_widen (audio : Buffer) (width : ℚ := 1.2) : Buffer :=
  let left_channel := (slice02 audio).map (fun ch => ch.map (fun s => s * width))
  let right_channel := (slice12 audio).map (fun ch => ch.map (fun s => s * width))
  interleave2 left_channel right_channel

theorem interleave2_slice {α : Type} : ∀ x : List α, interleave2 (slice02 x) (slice12 x) = x
  | [] => by simp [slice02, slice12, interleave2]
  | [_] => by simp [slice02, slice12, interleave2]
  | a :: b :: t => by
    simp only [slice02, slice12, interleave2]
    exact congrArg (fun r => a :: b :: r) (interleave2_slice t)

theorem interleave2_map {α β : Type} (f : α → β) :
    ∀ a b : List α, interleave2 (a.map f) (b.map f) = (interleave2 a b).map f
  | [], _ => by simp [interleave2]
  | x :: xs, b => by
    simp only [List.map_cons, interleave2]
    exact congrArg (fun r => f x :: r) (interleave2_map f b xs)
termination_by a b => a.length + b.length

/-- `stereo_widen` scales every sample of every channel by `width`,
whatever the channel count is. -/
theorem stereo_widen_eq_map (audio : Buffer) (width : ℚ) :
    stereo_widen audio width = audio.map (fun ch => ch.map (fun s => s * width)) := by
  unfold stereo_widen
  rw [interleave2_map, interleave2_slice]

/-- C5: on 2-channel buffers, composing two widenings multiplies the widths
(`widen (widen x w1) w2 = widen x (w1 * w2)`, exactly, hence within any
floating-point tolerance), and width 1 is the identity. -/
theorem stereo_widen_compose (x : Buffer) (w1 w2 : ℚ) (_h : x.length = 2) :
    stereo_widen (stereo_widen x w1) w2 = stereo_widen x (w1 * w2) ∧
    stereo_widen x 1 = x := by
  constructor
  · simp [stereo_widen_eq_map, List.map_map, Function.comp_def, mul_assoc]
  · simp [stereo_widen_eq_map]

/-- Witness for C5 on the 2-channel buffer `[[1, 2], [3, 4]]` with widths
2 and 3. -/
theorem stereo_widen_compose_witness :
    ([[(1 : ℚ), 2], [3, 4]] : Buffer).length = 2 ∧
    (stereo_widen (stereo_widen [[(1 : ℚ), 2], [3, 4]] 2) 3 =
        stereo_widen [[(1 : ℚ), 2], [3, 4]] (2 * 3) ∧
      stereo_widen [[(1 : ℚ), 2], [3, 4]] 1 = [[(1 : ℚ), 2], [3, 4]]) :=
  ⟨rfl, stereo_widen_compose [[(1 : ℚ), 2], [3, 4]] 2 3 rfl⟩

/-- C6 counterexample: `stereo_widen` does not fail on a buffer whose
channel count is not 2.  On the 3-channel buffer `[[1], [2], [3]]` with
width 2 it succeeds and returns the fully scaled buffer `[[2], [4], [6]]`
(there is no channel-count validation in the code at all). -/
theorem stereo_widen_three_channels_ok :
    stereo_widen [[(1 : ℚ)], [2], [3]] 2 = [[2], [4], [6]] := by
  rw [stereo_widen_eq_map]
  norm_num

/-- C6 amended: `stereo_widen` never fails; on a buffer of any channel
count it returns the buffer with every channel scaled by `width` (for an
even channel count this scales "left" and "right" slices alike; for any
other count it still totals every channel). -/
theorem stereo_widen_no_channel_check (audio : Buffer) (width : ℚ) :
    stereo_widen audio width = audio.map (fun ch => ch.map (fun s => s * width)) :=
  stereo_widen_eq_map audio width

/-! ### Filter stage (src/main.py lines 105-113)

`reduce_piano_volume` normalizes the cutoffs by the Nyquist frequency,
designs a first-order Butterworth band-pass with `scipy.signal.butter`,
applies it with `lfilter`, scales the filtered signal by
`10 ** (reduction_db / 20)` and subtracts it from the original.  The
function itself validates nothing; the only failure is the ValueError
raised inside `butter`. -/

/-- Scale every sample of a buffer (numpy `array * scalar`). -/
def bufScale (g : ℚ) (a : Buffer) : Buffer :=
  a.map (fun ch => ch.map (fun s => s * g))

/-- Elementwise difference of two same-shape buffers (numpy `a - b`). -/
def bufSub (a b : Buffer) : Buffer :=
  List.zipWith (fun ca cb => List.zipWith (fun x y => x - y) ca cb) a b

/-- Input validation performed by `scipy.signal.butter` (via `iirfilter`)
on the normalized critical frequencies, modelled from scipy's documented
behaviour: every frequency must satisfy `0 < Wn < 1`, and a band filter
additionally requires `Wn[0] < Wn[1]`; a violation raises ValueError with
the quoted message before any filtering happens. -/
def butter_band_check (low high : ℚ) : Except String Unit :=
  if low ≤ 0 ∨ high ≤ 0 ∨ 1 ≤ low ∨ 1 ≤ high then
    Except.error "Digital filter critical frequencies must be 0 < Wn < 1"
  else if ¬ low < high then
    Except.error "Wn[0] must be less than Wn[1]"
  else Except.ok ()

/-- The inner `reduce_piano_volume` of `process_audio_with_pedalboard`.
The designed Butterworth filter together with `lfilter` is abstracted as
the parameter `bandfilter` (the source only forwards the normalized edges
to scipy and applies the result), and `gain_reduction` stands for the value
`10 ** (reduction_db / 20)` (irrational for the default -18 dB, hence a
parameter of the embedding; no claim under scrutiny depends on its value). -/
def reduce_piano_volume (bandfilter : ℚ → ℚ → Buffer → Buffer) (gain_reduction : ℚ)
    (audio : Buffer) (sample_rate : ℚ) (freq_low : ℚ := 200) (freq_high : ℚ := 2000) :
    Except String Buffer :=
  let nyquist := sample_rate / 2
  let low := freq_low / nyquist
  let high := freq_high / nyquist
  match butter_band_check low high with
  | Except.error e => Except.error e
  | Except.ok _ =>
    let filtered_audio := bandfilter low high audio
    Except.ok (bufSub audio (bufScale gain_reduction filtered_audio))

theorem butter_band_check_error (low high : ℚ) (h : high ≤ low ∨ 1 ≤ high) :
    ∃ msg, butter_band_check low high = Except.error msg := by
  unfold butter_band_check
  by_cases hc : low ≤ 0 ∨ high ≤ 0 ∨ 1 ≤ low ∨ 1 ≤ high
  · rw [if_pos hc]
    exact ⟨_, rfl⟩
  · rw [if_neg hc]
    push_neg at hc
    rcases h with h1 | h2
    · rw [if_pos (not_lt.mpr h1)]
      exact ⟨_, rfl⟩
    · exact absurd h2 (not_le.mpr hc.2.2.2)

/-- C7: `reduce_piano_volume` fails, before producing any output, whenever
the filter spec is invalid: `freq_low ≥ freq_high` or
`freq_high ≥ Nyquist = sample_rate / 2` (for a positive sample rate).  The
source performs no validation of its own; the failure is the ValueError
scipy raises during filter design, which propagates to the caller as the
immediate outcome of the call. -/
theorem reduce_piano_volume_invalid_spec (bandfilter : ℚ → ℚ → Buffer → Buffer)
    (g : ℚ) (audio : Buffer) (sample_rate freq_low freq_high : ℚ)
    (hsr : 0 < sample_rate)
    (h : freq_high ≤ freq_low ∨ sample_rate / 2 ≤ freq_high) :
    ∃ msg, reduce_piano_volume bandfilter g audio sample_rate freq_low freq_high =
      Except.error msg := by
  have hny : 0 < sample_rate / 2 := by positivity
  have key : freq_high / (sample_rate / 2) ≤ freq_low / (sample_rate / 2) ∨
      1 ≤ freq_high / (sample_rate / 2) := by
    rcases h with h1 | h2
    · exact Or.inl ((div_le_div_iff_of_pos_right hny).mpr h1)
    · exact Or.inr ((one_le_div hny).mpr h2)
  obtain ⟨msg, hmsg⟩ := butter_band_check_error _ _ key
  exact ⟨msg, by simp [reduce_piano_volume, hmsg]⟩

/-- Witness for C7: with swapped cutoffs (2000 Hz low, 200 Hz high) at
sample rate 44100 the call fails. -/
theorem reduce_piano_volume_invalid_spec_witness :
    (0 : ℚ) < 44100 ∧ ((200 : ℚ) ≤ 2000 ∨ (44100 : ℚ) / 2 ≤ 200) ∧
    ∃ msg, reduce_piano_volume (fun _ _ a => a) (1 / 8) [[1]] 44100 2000 200 =
      Except.error msg :=
  ⟨by norm_num, Or.inl (by norm_num),
    reduce_piano_volume_invalid_spec (fun _ _ a => a) (1 / 8) [[1]] 44100 2000 200
      (by norm_num) (Or.inl (by norm_num))⟩

/-! ### Effects pipeline (src/main.py lines 115-124)

The source builds `Pedalboard([HighpassFilter(100), Compressor(-20, 4),
Limiter(-0.1), Reverb(0.3, 0.2), Gain(3)])`, runs the board, then applies
`stereo_widen` and `reduce_piano_volume`.  The five board effects are
implemented inside the pedalboard library and are abstracted as the fields
of `PedalboardFx`; the chain itself is baked into the body of
`process_audio_with_pedalboard`, which takes no chain argument. -/

/-- One step of an effect chain, as the spec's tagged variant. -/
inductive EffectStep where
  | HighPass (cutoff_frequency_hz : ℚ)
  | Compressor (threshold_db ratio : ℚ)
  | Limiter (threshold_db : ℚ)
  | Reverb (room_size wet_level : ℚ)
  | Gain (gain_db : ℚ)
  | StereoWiden (width : ℚ)
  | BandAttenuate (freq_low freq_high gain_reduction : ℚ)

/-- The externally implemented signal transforms the pipeline calls into:
the five pedalboard effects and the designed scipy band-pass filter. -/
structure PedalboardFx where
  highpass : ℚ → Buffer → Buffer
  compressor : ℚ → ℚ → Buffer → Buffer
  limiter : ℚ → Buffer → Buffer
  reverb : ℚ → ℚ → Buffer → Buffer
  gain : ℚ → Buffer → Buffer
  bandfilter : ℚ → ℚ → Buffer → Buffer

/-- Reduction of a successful bind in the `Except` monad. -/
theorem except_ok_bind {ε α β : Type} (a : α) (f : α → Except ε β) :
    (Except.ok a : Except ε α) >>= f = f a := rfl

/-- Interpret one effect step on a buffer. -/
def applyStep (fx : PedalboardFx) (sample_rate : ℚ) (audio : Buffer) :
    EffectStep → Except String Buffer
  | EffectStep.HighPass c => Except.ok (fx.highpass c audio)
  | EffectStep.Compressor t r => Except.ok (fx.compressor t r audio)
  | EffectStep.Limiter t => Except.ok (fx.limiter t audio)
  | EffectStep.Reverb rs wl => Except.ok (fx.reverb rs wl audio)
  | EffectStep.Gain g => Except.ok (fx.gain g audio)
  | EffectStep.StereoWiden w => Except.ok (stereo_widen audio w)
  | EffectStep.BandAttenuate fl fh g =>
      reduce_piano_volume fx.bandfilter g audio sample_rate fl fh

/-- Sequentially thread a buffer through a chain, aborting on the first
failing step (fail-fast, no partial output). -/
def applyChain (fx : PedalboardFx) (sample_rate : ℚ) (chain : List EffectStep)
    (audio : Buffer) : Except String Buffer :=
  chain.foldlM (fun a step => applyStep fx sample_rate a step) audio

/-- The step sequence hard-wired into `process_audio_with_pedalboard`. -/
def defaultChain (gain_reduction : ℚ) : List EffectStep :=
  [EffectStep.HighPass 100, EffectStep.Compressor (-20) 4, EffectStep.Limiter (-0.1),
   EffectStep.Reverb 0.3 0.2, EffectStep.Gain 3, EffectStep.StereoWiden 1.2,
   EffectStep.BandAttenuate 200 2000 gain_reduction]

/-- `AudioMastering.process_audio_with_pedalboard`, audio-path only (file
reading and writing stripped): the fixed board, then `stereo_widen`, then
`reduce_piano_volume`, with every parameter a literal from the source.
The function offers the caller no way to pass a chain. -/
def process_audio_with_pedalboard (fx : PedalboardFx) (gain_reduction sample_rate : ℚ)
    (audio : Buffer) : Except String Buffer :=
  let boarded := fx.gain 3 (fx.reverb 0.3 0.2 (fx.limiter (-0.1)
    (fx.compressor (-20) 4 (fx.highpass 100 audio))))
  let widened := stereo_widen boarded 1.2
  reduce_piano_volume fx.bandfilter gain_reduction widened sample_rate 200 2000

/-- C4 amended: the pipeline is exactly the sequential fail-fast
composition of the fixed chain HighPass, Compressor, Limiter, Reverb,
Gain, StereoWiden, BandAttenuate — but that chain is a hardcoded constant
of `process_audio_with_pedalboard` (which takes no chain argument), not a
caller-replaceable configuration. -/
theorem process_audio_is_fixed_default_chain (fx : PedalboardFx)
    (g sample_rate : ℚ) (audio : Buffer) :
    process_audio_with_pedalboard fx g sample_rate audio =
      applyChain fx sample_rate (defaultChain g) audio :=
  (bind_pure _).symm

/-- A concrete instantiation of the external effects in which every
transform passes the buffer through unchanged, used to evaluate the
pipeline skeleton on concrete inputs. -/
def idFx : PedalboardFx where
  highpass := fun _ a => a
  compressor := fun _ _ a => a
  limiter := fun _ a => a
  reverb := fun _ _ a => a
  gain := fun _ a => a
  bandfilter := fun _ _ a => a

/-- C4 counterexample to caller-configurability: at a concrete input the
pipeline's behaviour is that of the constant `defaultChain` — and differs
from what another chain (here the empty one) would produce, which the
caller has no way to select, `process_audio_with_pedalboard` taking no
chain parameter. -/
theorem process_audio_chain_is_hardcoded :
    process_audio_with_pedalboard idFx (1 / 8) 44100 [[40], [40]] =
      Except.ok [[42], [42]] ∧
    applyChain idFx 44100 (defaultChain (1 / 8)) [[40], [40]] =
      Except.ok [[42], [42]] ∧
    applyChain idFx 44100 [] [[40], [40]] = Except.ok [[40], [40]] ∧
    ¬ ((Except.ok [[(42 : ℚ)], [42]] : Except String Buffer) =
        Except.ok [[40], [40]]) := by
  refine ⟨?_, ?_, rfl, by simp [Buffer]⟩
  · norm_num [process_audio_with_pedalboard, reduce_piano_volume, butter_band_check,
      idFx, stereo_widen_eq_map, bufSub, bufScale]
  · norm_num [applyChain, defaultChain, applyStep, List.foldlM, except_ok_bind,
      reduce_piano_volume, butter_band_check, idFx, stereo_widen_eq_map, bufSub,
      bufScale]

/-! ### Limiter step (spec section 4.3; implementation inside pedalboard)

The source only instantiates `Limiter(threshold_db=-0.1)`; the limiter's
sample-level algorithm lives in the pedalboard library, not in src/. -/

/-- Conversion from a decibel level to a linear amplitude,
`10 ^ (db / 20)` (spec sections 4.1 and 4.3). -/
noncomputable def dbToAmplitude (db : ℝ) : ℝ := (10 : ℝ) ^ (db / 20)

/-- Modelled from the spec: the `Limiter{threshold_db}` effect step, whose
implementation is missing from src/ (only its instantiation in the default
board is there).  Section 4.3 specifies a hard ceiling at `threshold_db` —
no output sample may exceed `10 ^ (threshold_db / 20)` in magnitude — so
the step clamps every sample into that symmetric range. -/
noncomputable def limiterStep (threshold_db : ℝ) (audio : List ℝ) : List ℝ :=
  audio.map (fun s =>
    max (-(dbToAmplitude threshold_db)) (min (dbToAmplitude threshold_db) s))

/-- C8: for every input buffer, every sample the Limiter step with
threshold `T` dB outputs has magnitude at most `10 ^ (T / 20)`. -/
theorem limiter_hard_ceiling (T : ℝ) (audio : List ℝ) :
    ∀ y ∈ limiterStep T audio, |y| ≤ dbToAmplitude T := by
  intro y hy
  obtain ⟨s, -, rfl⟩ := List.mem_map.mp hy
  have hc : 0 ≤ dbToAmplitude T := by
    unfold dbToAmplitude
    positivity
  rw [abs_le]
  refine ⟨le_max_left _ _, max_le (by linarith) (min_le_left _ _)⟩

/-- Witness for C8: with threshold 0 dB (amplitude ceiling 1), the sample 2
is limited to 1, and 1 is within the ceiling. -/
theorem limiter_hard_ceiling_witness :
    (1 : ℝ) ∈ limiterStep 0 [2] ∧ |(1 : ℝ)| ≤ dbToAmplitude 0 := by
  have h1 : limiterStep 0 [2] = [1] := by
    unfold limiterStep dbToAmplitude
    norm_num [Real.rpow_zero]
  have hm : (1 : ℝ) ∈ limiterStep 0 [2] := by
    rw [h1]
    exact List.mem_singleton.mpr rfl
  exact ⟨hm, limiter_hard_ceiling 0 [2] 1 hm⟩

end MusicAPI
